import Mathlib

/-!
Shallow embedding of the query-to-context retrieval and aggregation core of
the slt_project repository (src/SourceRetriever.py, src/LLM.py, src/app.py),
together with theorems settling the spec claims about it.

Modelling conventions:
* The external Elasticsearch service is abstracted as an environment `ESEnv`
  mapping the query documents the code builds to hit lists; `none` models the
  service call raising an exception.  Scores are modelled as `Int` (no claim
  depends on float arithmetic, only on comparisons and record plumbing).
* A pandas `DataFrame` produced by the retriever is modelled by its row list;
  the empty list stands for the column-less `pd.DataFrame()` the source
  returns on every failure path (zero hits, caught exception, missing
  client).  Frame-level column bookkeeping that the code branches on
  (`provider.domain` presence, the final column selection, `"score" in
  columns`) is carried explicitly as a `cols : List String` field.
* `pd.merge(..., how="inner")` preserves the order of the left keys and, per
  left row, lists matching right rows in their order; calling it when a side
  lacks the join column (the column-less empty frame) raises `KeyError`,
  modelled as `Except.error`.
* `sort_values(["score", "rank"], ascending=[False, True])` uses an unstable
  quicksort; it is modelled by an insertion sort for the same total preorder.
  No claim depends on the order of records that tie on both keys.
* `DataFrame.iloc[i]` with a negative `i` indexes from the end (Python
  semantics) and raises `IndexError` below `-len`; `iterrows()` yields the
  frame's index labels, which are the global row positions for every context
  the repository passes to `filter_context` (all producers end with
  `reset_index(drop=True)`, and `head(100)` keeps the leading labels).
-/

namespace SLT

/-- One hit of the SERP index (`aql_serps`): identifier, matched query text,
relevance score and optional provider domain.  `provider = none` models a
document without the `provider.domain` field. -/
structure SerpHit where
  id : String
  warcQuery : String
  score : Int
  provider : Option String
deriving DecidableEq, Repr

/-- One hit of the results index (`aql_results`) that has `snippet.text`:
parent SERP id, snippet id, snippet text and rank within the SERP. -/
structure TextHit where
  serpId : String
  snippetId : String
  text : String
  rank : Int
deriving DecidableEq, Repr

/-- Abstract model of the external Elasticsearch service together with the
client connection state.  The search functions receive the boost-domain list
the code would put into the `should` clause (`[]` = no boost clause); `none`
models the search call raising, which the source catches. -/
structure ESEnv where
  /-- whether `self.es_client` is set (connection succeeded) -/
  connected : Bool
  /-- domain-frequency aggregation for the OR-style `multi_match` query;
  `none` models the aggregation call raising (swallowed by the source) -/
  domainAggOr : String → Option (List String)
  /-- domain-frequency aggregation for the AND-style `query_string` query -/
  domainAggAnd : String → Option (List String)
  /-- ranked hits for the OR-style `multi_match` SERP search -/
  searchOr : String → List String → Option (List SerpHit)
  /-- ranked hits for the AND-style `query_string` SERP search -/
  searchAnd : String → List String → Option (List SerpHit)
  /-- documents of the results index that have `snippet.text` -/
  results : List TextHit
  /-- whether the results-index search call succeeds -/
  resultsOk : Bool

/-- Embeds `SourceRetriever.get_serps`.  Returns the rows of the SERP frame;
`[]` is the column-less empty `pd.DataFrame()`, which the source produces
when the client is missing, when the search raises, and when there are zero
hits (`.loc` on a column-less `json_normalize([])` raises `KeyError`, caught
by the surrounding handler which returns `pd.DataFrame()`).  A failing
domain aggregation is swallowed and retrieval proceeds unboosted; the
`"size": 50` of the request is the truncation to 50 hits. -/
def get_serps (env : ESEnv) (ragQuery : String) (usePriority : Bool) : List SerpHit :=
  if !env.connected then []
  else
    let boostDomains : List String :=
      if usePriority then
        match env.domainAggOr ragQuery with
        | some ds => ds
        | none => []
      else []
    match env.searchOr ragQuery boostDomains with
    | some hits => hits.take 50
    | none => []

/-- Embeds `SourceRetriever.get_texts_from_index`.  An empty SERP frame is
short-circuited; a raising search is caught; the `terms` query keeps the
documents whose `serp.id` is among the given SERP ids (capped at the
requested `"size": 10_000`); zero hits yield the empty frame.  The
missing-required-columns branch of the source cannot fire here because
`TextHit` carries all four required fields. -/
def get_texts_from_index (env : ESEnv) (serps : List SerpHit) : List TextHit :=
  if serps.isEmpty then []
  else if !env.resultsOk then []
  else
    let ids := serps.map (fun s => s.id)
    (env.results.filter (fun t => ids.contains t.serpId)).take 10000

/-- A row of the merged SERP-to-snippet frame, before the final column
selection drops `score` and `rank`. -/
structure JoinedRow where
  query : String
  provider : Option String
  text : String
  score : Int
  rank : Int
deriving DecidableEq, Repr

/-- A record of a final context frame: the columns kept by
`.loc[:, final_columns]`. -/
structure CtxRec where
  query : String
  provider : Option String
  text : String
deriving DecidableEq, Repr

/-- A final context frame: its column list and its rows. -/
structure Ctx where
  cols : List String
  rows : List CtxRec
deriving DecidableEq, Repr

/-- Embeds the `pd.merge(serps, texts, left_on="_id",
right_on="_source.serp.id", how="inner")` step for non-empty sides: inner
join preserving the order of the left rows, listing each left row's matches
in right order. -/
def mergeSerpsTexts (serps : List SerpHit) (texts : List TextHit) : List JoinedRow :=
  serps.flatMap (fun s =>
    (texts.filter (fun t => t.serpId == s.id)).map (fun t =>
      { query := s.warcQuery, provider := s.provider, text := t.text,
        score := s.score, rank := t.rank }))

/-- Whether row `a` sorts no later than row `b` under
`sort_values(["score", "rank"], ascending=[False, True])`. -/
def rowLE (a b : JoinedRow) : Bool :=
  if a.score == b.score then a.rank ≤ b.rank else b.score < a.score

/-- Insertion into a list sorted by `rowLE`. -/
def insertRow (x : JoinedRow) : List JoinedRow → List JoinedRow
  | [] => [x]
  | y :: ys => if rowLE x y then x :: y :: ys else y :: insertRow x ys

/-- Embeds `sort_values(["score", "rank"], ascending=[False, True])` (an
unstable quicksort in pandas; any sort for the same total preorder is a
faithful model, and no claim depends on the order of full ties). -/
def sortRows : List JoinedRow → List JoinedRow
  | [] => []
  | x :: xs => insertRow x (sortRows xs)

/-- The `final_columns` selection of the source: `provider_domain` is kept
only when the SERP side carried the column. -/
def finalColumns (hasProv : Bool) : List String :=
  if hasProv then ["query", "provider_domain", "text"] else ["query", "text"]

/-- The shared join/rename/sort/length-filter/column-selection tail of
`get_context` and `get_serps_with_and_query`, for non-empty join sides. -/
def assembleContext (serps : List SerpHit) (texts : List TextHit) : Ctx :=
  let hasProv := serps.any (fun s => s.provider.isSome)
  let joined := mergeSerpsTexts serps texts
  let processed :=
    ((sortRows joined).filter (fun r => 100 < r.text.length)).map
      (fun r => ({ query := r.query, provider := r.provider, text := r.text } : CtxRec))
  ⟨finalColumns hasProv, processed⟩

/-- Embeds `SourceRetriever.get_context`.  There is no exception handler in
this method: when either side of the join is the column-less empty frame,
`pd.merge` raises `KeyError` on the missing join column, which propagates to
the caller; this is modelled as `Except.error`. -/
def get_context (env : ESEnv) (ragQuery : String) (usePriority : Bool) :
    Except String Ctx :=
  if !env.connected then .ok ⟨[], []⟩
  else
    let serps := get_serps env ragQuery usePriority
    let texts := get_texts_from_index env serps
    if serps.isEmpty then .error "KeyError: _id"
    else if texts.isEmpty then .error "KeyError: _source.serp.id"
    else .ok (assembleContext serps texts)

/-- Embeds `SourceRetriever.get_serps_with_and_query`.  Unlike
`get_context`, this method returns the empty frame before merging when the
AND search yields no hits or when the snippet lookup is empty, and wraps the
whole body in a handler returning the empty frame, so it never raises. -/
def get_serps_with_and_query (env : ESEnv) (query : String) (usePriority : Bool) : Ctx :=
  if !env.connected then ⟨[], []⟩
  else
    let boostDomains : List String :=
      if usePriority then
        match env.domainAggAnd query with
        | some ds => ds
        | none => []
      else []
    match env.searchAnd query boostDomains with
    | none => ⟨[], []⟩
    | some hits =>
      let serps := hits.take 50
      if serps.isEmpty then ⟨[], []⟩
      else
        let texts := get_texts_from_index env serps
        if texts.isEmpty then ⟨[], []⟩
        else assembleContext serps texts

/-- A record of the merged multi-query frame: a context record plus the
`source_query` column added by `get_context_pipeline4`. -/
structure MRec where
  query : String
  provider : Option String
  text : String
  sourceQuery : String
deriving DecidableEq, Repr

/-- The merged multi-query frame: its column list and rows. -/
structure MCtx where
  cols : List String
  rows : List MRec
deriving DecidableEq, Repr

/-- Helper of `dedupByKey`: drop every element whose key was already seen,
keeping the first occurrence, preserving order.  This is the semantics of
`DataFrame.drop_duplicates(subset=["text"], keep="first")` (exact,
case-sensitive string comparison on the one column). -/
def dedupGo {α : Type} (key : α → String) (seen : List String) : List α → List α
  | [] => []
  | r :: rest =>
    if seen.contains (key r) then dedupGo key seen rest
    else r :: dedupGo key (key r :: seen) rest

/-- Embeds `drop_duplicates(subset=["text"], keep="first")`. -/
def dedupByKey {α : Type} (key : α → String) (l : List α) : List α :=
  dedupGo key [] l

/-- Tags every record of a per-query context with its originating pool query
(the `context["source_query"] = space_query` assignment). -/
def tagRows (q : String) (rows : List CtxRec) : List MRec :=
  rows.map (fun r =>
    { query := r.query, provider := r.provider, text := r.text, sourceQuery := q })

/-- The per-query retrieval of `get_context_pipeline4`: the AND-operator
precision query first, retried through the OR-style `get_context` when it
comes back empty.  The OR retry can raise (see `get_context`), which
propagates out of the pipeline. -/
def pipeline4Step (env : ESEnv) (usePriority : Bool) (q : String) : Except String Ctx :=
  let c := get_serps_with_and_query env q usePriority
  if c.rows.isEmpty then get_context env q usePriority else .ok c

/-- The accumulation loop of `get_context_pipeline4`: per pool query, in pool
order, retrieve; when non-empty, add the `source_query` column and append to
`all_contexts`.  An exception raised by a retrieval propagates. -/
def pipeline4Contexts (env : ESEnv) (usePriority : Bool) :
    List String → Except String (List (List String × List MRec))
  | [] => .ok []
  | q :: qs =>
    match pipeline4Step env usePriority q with
    | .error e => .error e
    | .ok c =>
      match pipeline4Contexts env usePriority qs with
      | .error e => .error e
      | .ok rest =>
        .ok (if c.rows.isEmpty then rest
             else (c.cols ++ ["source_query"], tagRows q c.rows) :: rest)

/-- Column union of `pd.concat` over frames with possibly different columns:
first frame's columns, then each later frame's new columns in order. -/
def colsUnion (ls : List (List String)) : List String :=
  ls.foldl (fun acc cs => acc ++ cs.filter (fun c => !acc.contains c)) []

/-- Embeds `SourceRetriever.get_context_pipeline4`: fan the pool out over the
AND-with-OR-fallback retrieval, concatenate the tagged non-empty contexts,
deduplicate globally on `text` keeping the first occurrence, and re-sort by
`score` only when the combined frame has a `score` column.  The contexts
concatenated here never carry a `score` column (their columns come from
`finalColumns`, see `pipeline4_cols_no_score`), so the re-sort branch is
dead and both branches of the `if` are the deduplicated rows unchanged.
Note: no truncation of any kind is applied here. -/
def get_context_pipeline4 (env : ESEnv) (queryList : List String) (usePriority : Bool) :
    Except String MCtx :=
  if !env.connected then .ok ⟨[], []⟩
  else if queryList.isEmpty then .ok ⟨[], []⟩
  else
    match pipeline4Contexts env usePriority queryList with
    | .error e => .error e
    | .ok ctxs =>
      if ctxs.isEmpty then .ok ⟨[], []⟩
      else
        let cols := colsUnion (ctxs.map (fun p => p.1))
        let deduped := dedupByKey (fun r => MRec.text r) (ctxs.map (fun p => p.2)).flatten
        .ok ⟨cols, if cols.contains "score" then deduped else deduped⟩

/-- The retrieval loop of `run_pipeline_4` in src/app.py: per pool query call
`get_context` (OR-style, default provider priority) and keep the non-empty
frames; a raised exception propagates to the surrounding handler. -/
def appPipeline4Contexts (env : ESEnv) :
    List String → Except String (List (List CtxRec))
  | [] => .ok []
  | q :: qs =>
    match get_context env q true with
    | .error e => .error e
    | .ok c =>
      match appPipeline4Contexts env qs with
      | .error e => .error e
      | .ok rest => .ok (if c.rows.isEmpty then rest else c.rows :: rest)

/-- Embeds the context assembly of `run_pipeline_4` in src/app.py for a given
query pool: concatenate the non-empty per-query contexts, deduplicate on
`text`, and truncate with `head(100)`; this `truncated_pool_df` is what is
handed to the relevance filter.  The surrounding `except Exception` turns
any raised error into the empty context of the error result. -/
def run_pipeline_4_context (env : ESEnv) (queryPool : List String) : List CtxRec :=
  match appPipeline4Contexts env queryPool with
  | .error _ => []
  | .ok ctxs => if ctxs.isEmpty then [] else (dedupByKey (fun r => CtxRec.text r) ctxs.flatten).take 100

/-- Outcome of one relevance-judge call on one batch, as the source
distinguishes them: a parsed `relevant_indices` list (a parsed object
without the key yields `ok []` via `result.get("relevant_indices", [])`), a
`json.JSONDecodeError`/`KeyError` from parsing (`parseFail`), or an
exception from the API call itself or from any later step of the batch
handling (`apiFail`). -/
inductive JudgeResult where
  | ok (indices : List Int)
  | parseFail
  | apiFail
deriving DecidableEq, Repr

/-- Embeds `DataFrame.iloc[idx]` on a batch: a negative index counts from
the end; `none` models the `IndexError` raised below `-len` (and at or above
`len`, though the source's guard already excludes that side). -/
def ilocGet {α : Type} (batch : List α) (idx : Int) : Option α :=
  let j : Int := if idx < 0 then (batch.length : Int) + idx else idx
  if 0 ≤ j then batch[j.toNat]? else none

/-- The index loop of `filter_context` on one batch:
`for idx in relevant_indices: if idx < len(batch):
filtered_contexts.append(batch.iloc[idx])`.  Returns the rows appended and
whether an `IndexError` escaped partway (to be caught by the outer handler,
which then extends with the whole batch; the partial appends remain). -/
def collectIndices {α : Type} (batch : List α) : List Int → List α × Bool
  | [] => ([], false)
  | idx :: rest =>
    if idx < (batch.length : Int) then
      match ilocGet batch idx with
      | some r =>
        let p := collectIndices batch rest
        (r :: p.1, p.2)
      | none => ([], true)
    else collectIndices batch rest

/-- What one batch contributes to `filtered_contexts`: the selected rows for
a parsed response (plus the whole batch after an escaped `IndexError`), and
the whole batch on a parse failure or an API failure (the two fail-open
handlers in the source). -/
def batchContribution {α : Type} (batch : List α) : JudgeResult → List α
  | .ok indices =>
    let p := collectIndices batch indices
    if p.2 then p.1 ++ batch else p.1
  | .parseFail => batch
  | .apiFail => batch

/-- The indexed snippet list shown to the judge for one batch:
`f"[{idx}]: {row['text']}"` for each row, where `idx` is the `iterrows`
label — the global row position `start + j` for the contexts this
repository builds (they all carry a `RangeIndex`), not the position within
the batch. -/
def presentBatch {α : Type} (text : α → String) (start : Nat) (batch : List α) :
    List (Nat × String) :=
  (batch.enum).map (fun p => (start + p.1, text p.2))

/-- The batching loop of `filter_context`: `for i in range(0,
len(context_df), batch_size)` with the hardcoded `batch_size = 5`, taking
`batch = context_df.iloc[i:i + 5]`, showing it to the judge with its labels
and collecting each batch's contribution in order. -/
def processBatches {α : Type} (text : α → String)
    (judge : List (Nat × String) → JudgeResult) (start : Nat) :
    List α → List α
  | [] => []
  | a :: b :: c :: d :: e :: rest =>
    batchContribution [a, b, c, d, e] (judge (presentBatch text start [a, b, c, d, e]))
      ++ processBatches text judge (start + 5) rest
  | l => batchContribution l (judge (presentBatch text start l))

/-- Embeds `LLM.filter_context`.  `hasClient` is the `self.client` guard; an
empty input is returned as is; when every batch contributes nothing the
original context is returned as the documented fallback. -/
def filter_context {α : Type} (text : α → String) (hasClient : Bool)
    (judge : List (Nat × String) → JudgeResult) (ctx : List α) : List α :=
  if !hasClient || ctx.isEmpty then ctx
  else if (processBatches text judge 0 ctx).isEmpty then ctx
  else processBatches text judge 0 ctx

/-- Outcome of one query-expansion call, as the source distinguishes them:
the chat call raising (`apiFail`), content that `json.loads` parses directly
(`parsed`, with the value of the `"queries"` key when present), content
whose direct parse fails but whose brace-extracted substring parses
(`repaired`), and content where both fail (`unparsed`). -/
inductive ExpansionResponse where
  | apiFail
  | parsed (queries : Option (List String))
  | repaired (queries : Option (List String))
  | unparsed
deriving DecidableEq, Repr

/-- Embeds `LLM.generate_query_pool`: the default pool is `[query]`; a
directly-parsed or repaired JSON object replaces it with
`response_data.get("queries", [query])` — the parsed list itself whenever
the key is present, whatever its value. -/
def generate_query_pool (hasClient : Bool) (resp : ExpansionResponse)
    (query : String) : List String :=
  if !hasClient then [query]
  else
    match resp with
    | .apiFail => [query]
    | .parsed qs => qs.getD [query]
    | .repaired qs => qs.getD [query]
    | .unparsed => [query]

/-- Spec-side characterization of what one out-of-range or negative judge
index does to a batch, written from the amended wording of the index-safety
claim, to be compared with the source-derived `batchContribution`. -/
def specSingleIndexOutcome (batch : List CtxRec) (idx : Int) : List CtxRec :=
  if (batch.length : Int) ≤ idx then []
  else if 0 ≤ idx then (batch[idx.toNat]?).toList
  else if -(batch.length : Int) ≤ idx then
    (batch[((batch.length : Int) + idx).toNat]?).toList
  else batch

/-! Concrete environments and records used by counterexamples and witnesses. -/

/-- A snippet text of 101 characters, just above the 100-character cut. -/
def tLong : String := String.mk (List.replicate 101 'x')

/-- A snippet text of 150 characters. -/
def tLong2 : String := String.mk (List.replicate 150 'y')

/-- A SERP hit used by several concrete environments. -/
def serpW : SerpHit := ⟨"s", "w", 1, none⟩

/-- A results-index hit joining to `serpW` with a long snippet. -/
def textW : TextHit := ⟨"s", "sn", tLong, 1⟩

/-- A second SERP hit, answering the AND-style search in `envC8`. -/
def serpW2 : SerpHit := ⟨"s2", "w2", 1, none⟩

/-- A results-index hit joining to `serpW2`. -/
def textW2 : TextHit := ⟨"s2", "sn2", tLong2, 1⟩

/-- Environment where every SERP search succeeds with zero hits. -/
def envC1a : ESEnv :=
  { connected := true, domainAggOr := fun _ => some [],
    domainAggAnd := fun _ => some [], searchOr := fun _ _ => some [],
    searchAnd := fun _ _ => some [], results := [textW], resultsOk := true }

/-- Environment where the SERP search finds a hit but the snippet lookup
returns no rows. -/
def envC1b : ESEnv :=
  { connected := true, domainAggOr := fun _ => some [],
    domainAggAnd := fun _ => some [], searchOr := fun _ _ => some [serpW],
    searchAnd := fun _ _ => some [], results := [], resultsOk := true }

/-- 101 results-index hits for one SERP, pairwise distinct texts, each of
102 characters. -/
def c2Texts : List TextHit :=
  (List.range 101).map (fun i =>
    { serpId := "s1", snippetId := toString i,
      text := String.mk (Char.ofNat (65 + i) :: List.replicate 101 'a'),
      rank := (i : Int) })

/-- Environment where one pool query retrieves 101 distinct long snippets
through the AND-style search. -/
def envC2 : ESEnv :=
  { connected := true, domainAggOr := fun _ => some [],
    domainAggAnd := fun _ => some [], searchOr := fun _ _ => some [],
    searchAnd := fun _ _ => some [⟨"s1", "w", 1, none⟩],
    results := c2Texts, resultsOk := true }

/-- Environment where distinct pool queries retrieve records with identical
text (the AND search answers every query with one SERP whose snippet is
`tLong`). -/
def envC5 : ESEnv :=
  { connected := true, domainAggOr := fun _ => some [],
    domainAggAnd := fun _ => some [],
    searchOr := fun _ _ => some [],
    searchAnd := fun q _ => some [⟨"s", q, 1, none⟩],
    results := [textW], resultsOk := true }

/-- The per-query context retrieved by `envC5` for pool query `"a"`. -/
def cC5a : Ctx := ⟨["query", "text"], [⟨"a", none, tLong⟩]⟩

/-- The per-query context retrieved by `envC5` for pool query `"b"`. -/
def cC5b : Ctx := ⟨["query", "text"], [⟨"b", none, tLong⟩]⟩

/-- The merged context `get_context_pipeline4 envC5 ["a", "b"] true`
returns: one record, carrying the first pool query as `source_query`. -/
def mctxC5 : MCtx :=
  ⟨["query", "text", "source_query"], [⟨"a", none, tLong, "a"⟩]⟩

/-- Environment where both the OR-style and the AND-style retrieval succeed
with one long snippet each. -/
def envC8 : ESEnv :=
  { connected := true, domainAggOr := fun _ => some [],
    domainAggAnd := fun _ => some [], searchOr := fun _ _ => some [serpW],
    searchAnd := fun _ _ => some [serpW2], results := [textW, textW2],
    resultsOk := true }

/-- The context `get_context envC8 "q" true` returns. -/
def ctxC8 : Ctx := ⟨["query", "text"], [⟨"w", none, tLong⟩]⟩

/-- Environment where the AND-style search has zero matches but the OR-style
retrieval succeeds. -/
def envC9 : ESEnv :=
  { connected := true, domainAggOr := fun _ => some [],
    domainAggAnd := fun _ => some [], searchOr := fun _ _ => some [serpW],
    searchAnd := fun _ _ => some [], results := [textW], resultsOk := true }

/-- The context the OR-style retrieval returns in `envC9`. -/
def cC9 : Ctx := ⟨["query", "text"], [⟨"w", none, tLong⟩]⟩

/-- The i-th record of the small contexts fed to `filter_context` in the
relevance-filter counterexamples. -/
def mkRec (i : Nat) : CtxRec := ⟨"q", none, "t" ++ toString i⟩

/-- A ten-record context: two batches of five under the hardcoded batch
size. -/
def ctx10 : List CtxRec := (List.range 10).map mkRec

/-- A judge that answers every batch with exactly the first index tag it was
shown (the best-behaved collaborator imaginable: it echoes a label it saw). -/
def judgeEcho : List (Nat × String) → JudgeResult
  | [] => JudgeResult.ok []
  | p :: _ => JudgeResult.ok [(p.1 : Int)]

/-! Helper lemmas. -/

theorem tagRows_sourceQuery {q : String} {rows : List CtxRec} {r : MRec}
    (h : r ∈ tagRows q rows) : r.sourceQuery = q := by
  simp only [tagRows, List.mem_map] at h
  obtain ⟨a, -, rfl⟩ := h
  rfl

theorem tagRows_map_text (q : String) (rows : List CtxRec) :
    (tagRows q rows).map (fun r => MRec.text r) = rows.map (fun r => CtxRec.text r) := by
  simp [tagRows]

theorem dedupGo_key_not_seen {α : Type} (key : α → String) :
    ∀ (l : List α) (seen : List String) (r : α),
      r ∈ dedupGo key seen l → key r ∉ seen := by
  intro l
  induction l with
  | nil => intro seen r h; simp [dedupGo] at h
  | cons x xs ih =>
    intro seen r h
    by_cases hx : seen.contains (key x)
    · rw [dedupGo, if_pos hx] at h
      exact ih seen r h
    · rw [dedupGo, if_neg hx] at h
      rcases List.mem_cons.mp h with hr | hr
      · subst hr
        simpa using hx
      · intro hs
        exact ih (key x :: seen) r hr (List.mem_cons_of_mem _ hs)

theorem dedupGo_nodup_keys {α : Type} (key : α → String) :
    ∀ (l : List α) (seen : List String),
      ((dedupGo key seen l).map key).Nodup := by
  intro l
  induction l with
  | nil => intro seen; simp [dedupGo]
  | cons x xs ih =>
    intro seen
    by_cases hx : seen.contains (key x)
    · rw [dedupGo, if_pos hx]; exact ih seen
    · rw [dedupGo, if_neg hx]
      refine List.nodup_cons.mpr ⟨?_, ih (key x :: seen)⟩
      intro hmem
      rcases List.mem_map.mp hmem with ⟨r, hr, hkey⟩
      exact dedupGo_key_not_seen key xs (key x :: seen) r hr
        (hkey ▸ List.mem_cons_self _ _)

theorem dedupGo_first {α : Type} (key : α → String) :
    ∀ (l₁ l₂ : List α) (seen : List String) (r : α),
      r ∈ dedupGo key seen (l₁ ++ l₂) → key r ∈ l₁.map key → r ∈ l₁ := by
  intro l₁
  induction l₁ with
  | nil => intro l₂ seen r _ hk; simp at hk
  | cons x xs ih =>
    intro l₂ seen r h hk
    rw [List.cons_append] at h
    by_cases hx : seen.contains (key x)
    · rw [dedupGo, if_pos hx] at h
      have hns := dedupGo_key_not_seen key (xs ++ l₂) seen r h
      rcases List.mem_map.mp hk with ⟨a, ha, hkey⟩
      rcases List.mem_cons.mp ha with rfl | ha'
      · have hxm : key a ∈ seen := by simpa using hx
        exact absurd (hkey ▸ hxm) hns
      · exact List.mem_cons_of_mem _ (ih l₂ seen r h (hkey ▸ List.mem_map_of_mem key ha'))
    · rw [dedupGo, if_neg hx] at h
      rcases List.mem_cons.mp h with rfl | h'
      · exact List.mem_cons_self _ _
      · have hns := dedupGo_key_not_seen key (xs ++ l₂) (key x :: seen) r h'
        have hkx : key r ≠ key x := fun he => hns (he ▸ List.mem_cons_self _ _)
        rcases List.mem_map.mp hk with ⟨a, ha, hkey⟩
        rcases List.mem_cons.mp ha with rfl | ha'
        · exact absurd hkey.symm hkx
        · exact List.mem_cons_of_mem _ (ih l₂ (key x :: seen) r h' (hkey ▸ List.mem_map_of_mem key ha'))

theorem dedupByKey_nodup_keys {α : Type} (key : α → String) (l : List α) :
    ((dedupByKey key l).map key).Nodup :=
  dedupGo_nodup_keys key l []

theorem dedupByKey_first {α : Type} (key : α → String) (l₁ l₂ : List α) (r : α)
    (h : r ∈ dedupByKey key (l₁ ++ l₂)) (hk : key r ∈ l₁.map key) : r ∈ l₁ :=
  dedupGo_first key l₁ l₂ [] r h hk

/-! ### C1 -/

/-- C1: the claim states that `get_context` returns an empty Context and
never raises when either side of the SERP-to-snippet join is empty.  The
code refutes it: at `envC1a` the SERP lookup returns no rows, at `envC1b`
the snippet-text lookup returns no rows, and in both cases the source
reaches `pd.merge` with a column-less empty DataFrame on one side, which
raises a `KeyError` on the missing join column that propagates to the
caller (modelled as `Except.error`). -/
theorem c1_get_context_raises_on_empty_join_side :
    get_context envC1a "anything" true = Except.error "KeyError: _id"
    ∧ get_context envC1b "anything" true = Except.error "KeyError: _source.serp.id" :=
  ⟨rfl, rfl⟩

/-! ### C2 -/

/-- C2 counterexample: the claim states that `get_context_pipeline4` never
returns more than 100 records.  In `envC2` a single pool query retrieves
101 snippets with pairwise distinct texts, and `get_context_pipeline4`
returns all 101 of them: no truncation is applied inside this method. -/
theorem c2_no_truncation_counterexample :
    (get_context_pipeline4 envC2 ["q"] true).toOption.map (fun c => c.rows.length)
        = some 101
    ∧ ¬ (101 ≤ 100) :=
  ⟨rfl, by decide⟩

/-- C2 amended: the 100-record cap lives in the caller, not in
`get_context_pipeline4`: the pipeline-4 driver in src/app.py truncates the
merged, deduplicated frame with `head(100)` before handing it to the
relevance filter, so that frame never has more than 100 records, for every
environment and every query pool. -/
theorem c2_amended_cap_in_caller :
    ∀ (env : ESEnv) (queryPool : List String),
      (run_pipeline_4_context env queryPool).length ≤ 100 := by
  intro env pool
  unfold run_pipeline_4_context
  split
  · simp
  · split
    · simp
    · simp [List.length_take_le]

/-! ### C7 -/

/-- C7 counterexample: the claim states the query pool always contains at
least the original question, explicitly including the case of well-formed
JSON whose `queries` list is empty.  The code refutes that case:
`response_data.get("queries", [query])` returns the parsed empty list
as-is, so the pool is empty and does not contain the original question. -/
theorem c7_empty_queries_counterexample :
    generate_query_pool true (ExpansionResponse.parsed (some [])) "q" = []
    ∧ "q" ∉ generate_query_pool true (ExpansionResponse.parsed (some [])) "q" :=
  ⟨rfl, by decide⟩

/-- C7 amended: the pool is the fallback `[query]` whenever the client is
missing, the expansion call fails, the output is unparseable even after
brace-extraction repair, or the parsed object lacks the `queries` key; but
whenever a direct or repaired parse yields a `queries` value, that list is
returned as-is — in particular a well-formed response with an empty
`queries` list yields an empty pool. -/
theorem c7_amended_fallback :
    ∀ (hasClient : Bool) (resp : ExpansionResponse) (query : String),
      generate_query_pool hasClient resp query = [query]
      ∨ ∃ qs, (resp = ExpansionResponse.parsed (some qs)
                ∨ resp = ExpansionResponse.repaired (some qs))
          ∧ generate_query_pool hasClient resp query = qs := by
  intro hc resp q
  cases hc with
  | false => left; rfl
  | true =>
    cases resp with
    | apiFail => left; rfl
    | unparsed => left; rfl
    | parsed qs =>
      cases qs with
      | none => left; rfl
      | some l => right; exact ⟨l, Or.inl rfl, rfl⟩
    | repaired qs =>
      cases qs with
      | none => left; rfl
      | some l => right; exact ⟨l, Or.inr rfl, rfl⟩

/-! ### C3 -/

/-- C3 counterexample: the claim states that an index outside
`[0, batch_size)` never selects a record, in particular that a negative
index selects nothing — which would leave `filtered_contexts` empty here,
so the fallback would return the whole two-record context.  The code
refutes it: the guard is only `idx < len(batch)`, a negative index passes
it, and `batch.iloc[-1]` selects the last record of the batch, so the
output is exactly that selected record. -/
theorem c3_negative_index_selects :
    filter_context (fun r => CtxRec.text r) true (fun _ => JudgeResult.ok [-1])
        [mkRec 0, mkRec 1] = [mkRec 1]
    ∧ filter_context (fun r => CtxRec.text r) true (fun _ => JudgeResult.ok [-1])
        [mkRec 0, mkRec 1] ≠ [mkRec 0, mkRec 1] :=
  ⟨rfl, by decide⟩

/-- C3 amended: an index at or above the batch length is dropped silently
and selects nothing; a negative index `idx` with `-len ≤ idx` selects the
record at position `len + idx` (Python negative indexing through
`iloc`); a negative index below `-len` raises an `IndexError` that the
surrounding handler catches by retaining the whole batch.  In every case
the exception stays inside `filter_context`; nothing reaches the caller. -/
theorem c3_amended_index_resolution :
    ∀ (batch : List CtxRec) (idx : Int),
      batchContribution batch (JudgeResult.ok [idx]) = specSingleIndexOutcome batch idx := by
  intro batch idx
  by_cases h1 : (batch.length : Int) ≤ idx
  · rw [specSingleIndexOutcome, if_pos h1]
    simp [batchContribution, collectIndices, not_lt.mpr h1]
  · by_cases h2 : 0 ≤ idx
    · have hn : idx.toNat < batch.length := by omega
      rw [specSingleIndexOutcome, if_neg h1, if_pos h2]
      simp [batchContribution, collectIndices, ilocGet, not_le.mp h1,
        not_lt.mpr h2, h2, List.getElem?_eq_getElem hn]
    · by_cases h3 : -(batch.length : Int) ≤ idx
      · have hj : (0 : Int) ≤ (batch.length : Int) + idx := by omega
        have hn : ((batch.length : Int) + idx).toNat < batch.length := by omega
        rw [specSingleIndexOutcome, if_neg h1, if_neg h2, if_pos h3]
        simp [batchContribution, collectIndices, ilocGet, not_le.mp h2, hj,
          List.getElem?_eq_getElem hn, show idx < (batch.length : Int) by omega]
      · have hj : ¬ (0 : Int) ≤ (batch.length : Int) + idx := by omega
        rw [specSingleIndexOutcome, if_neg h1, if_neg h2, if_neg h3]
        simp [batchContribution, collectIndices, ilocGet, not_le.mp h2, hj,
          show idx < (batch.length : Int) by omega]

/-! ### C4 -/

/-- C4: the claim states that each record of a batch is presented to the
judge tagged `0 .. batch_size - 1` and that a returned index selects the
record the judge saw under that tag.  The code refutes it: `iterrows`
yields the frame's global row labels, so the second batch of a ten-record
context is shown tagged `[5] .. [9]` (first conjunct).  A judge that
answers each batch with exactly the first tag it was shown therefore
selects record 0 from the first batch, but its verdict `5` for the second
batch fails the `idx < len(batch)` guard and is dropped, so record 5 is
never selected (second and third conjuncts); under the claim the output
would have been `[mkRec 0, mkRec 5]`. -/
theorem c4_batches_tagged_with_global_labels :
    presentBatch (fun r => CtxRec.text r) 5 [mkRec 5, mkRec 6, mkRec 7, mkRec 8, mkRec 9]
        = [(5, "t5"), (6, "t6"), (7, "t7"), (8, "t8"), (9, "t9")]
    ∧ filter_context (fun r => CtxRec.text r) true judgeEcho ctx10 = [mkRec 0]
    ∧ mkRec 5 ∉ filter_context (fun r => CtxRec.text r) true judgeEcho ctx10 :=
  ⟨rfl, rfl, by decide⟩

/-! Relevance-filter helper lemmas. -/

theorem presentBatch_length {α : Type} (text : α → String) (start : Nat) (b : List α) :
    (presentBatch text start b).length = b.length := by
  simp [presentBatch]

theorem processBatches_const_apiFail {α : Type} (text : α → String) :
    ∀ (start : Nat) (l : List α),
      processBatches text (fun _ => JudgeResult.apiFail) start l = l
  | _, [] => rfl
  | start, a :: b :: c :: d :: e :: rest => by
    have ih := processBatches_const_apiFail text (start + 5) rest
    show batchContribution [a, b, c, d, e] JudgeResult.apiFail
        ++ processBatches (fun r => text r) (fun _ => JudgeResult.apiFail) (start + 5) rest
      = a :: b :: c :: d :: e :: rest
    rw [ih]
    rfl
  | _, [a] => rfl
  | _, [a, b] => rfl
  | _, [a, b, c] => rfl
  | _, [a, b, c, d] => rfl

theorem collectIndices_increasing {α : Type} (b : List α) :
    ∀ (idxs : List Int) (k : Nat),
      idxs.Pairwise (· < ·) →
      (∀ i ∈ idxs, (k : Int) ≤ i ∧ i < (b.length : Int)) →
      (collectIndices b idxs).2 = false
        ∧ (collectIndices b idxs).1.Sublist (b.drop k)
  | [], k, _, _ => by simp [collectIndices]
  | i :: rest, k, hp, hb => by
    obtain ⟨hk, hlen⟩ := hb i (List.mem_cons_self i rest)
    have hi0 : (0 : Int) ≤ i := le_trans (Int.ofNat_nonneg k) hk
    have hn : i.toNat < b.length := by omega
    have hrest : ∀ j ∈ rest, ((i.toNat + 1 : Nat) : Int) ≤ j ∧ j < (b.length : Int) := by
      intro j hjr
      have hij : i < j := (List.pairwise_cons.mp hp).1 j hjr
      have := (hb j (List.mem_cons_of_mem i hjr)).2
      omega
    have ih := collectIndices_increasing b rest (i.toNat + 1)
      (List.pairwise_cons.mp hp).2 hrest
    have hiloc : ilocGet b i = some (b.get ⟨i.toNat, hn⟩) := by
      simp [ilocGet, not_lt.mpr hi0, hi0, List.getElem?_eq_getElem hn]
    rw [collectIndices, if_pos hlen, hiloc]
    dsimp only
    refine ⟨ih.1, ?_⟩
    have h2 : List.Sublist (b.get ⟨i.toNat, hn⟩ :: (collectIndices b rest).1)
        (b.get ⟨i.toNat, hn⟩ :: b.drop (i.toNat + 1)) :=
      List.Sublist.cons₂ _ ih.2
    have h3 : b.get ⟨i.toNat, hn⟩ :: b.drop (i.toNat + 1) = b.drop i.toNat :=
      List.getElem_cons_drop b i.toNat hn
    have h4 : List.Sublist (b.drop i.toNat) (b.drop k) :=
      List.drop_sublist_drop_left b (by omega)
    exact (h3 ▸ h2).trans h4

theorem batchContribution_sublist {α : Type} (b : List α) (res : JudgeResult)
    (h : ∀ idxs, res = JudgeResult.ok idxs →
        idxs.Pairwise (· < ·) ∧ ∀ i ∈ idxs, 0 ≤ i ∧ i < (b.length : Int)) :
    (batchContribution b res).Sublist b := by
  cases res with
  | parseFail => exact List.Sublist.refl b
  | apiFail => exact List.Sublist.refl b
  | ok idxs =>
    obtain ⟨hp, hb⟩ := h idxs rfl
    have hb' : ∀ i ∈ idxs, ((0 : Nat) : Int) ≤ i ∧ i < (b.length : Int) := by
      intro i hi
      exact ⟨by exact_mod_cast (hb i hi).1, (hb i hi).2⟩
    obtain ⟨he, hs⟩ := collectIndices_increasing b idxs 0 hp hb'
    rw [batchContribution, he]
    simpa using hs

theorem contribution_of_shown_sublist {α : Type} (text : α → String)
    (judge : List (Nat × String) → JudgeResult)
    (hj : ∀ shown idxs, judge shown = JudgeResult.ok idxs →
        idxs.Pairwise (· < ·) ∧ ∀ i ∈ idxs, 0 ≤ i ∧ i < (shown.length : Int))
    (start : Nat) (b : List α) :
    (batchContribution b (judge (presentBatch text start b))).Sublist b :=
  batchContribution_sublist b _ (fun idxs he => by
    have h := hj (presentBatch text start b) idxs he
    rwa [presentBatch_length] at h)

theorem processBatches_sublist {α : Type} (text : α → String)
    (judge : List (Nat × String) → JudgeResult)
    (hj : ∀ shown idxs, judge shown = JudgeResult.ok idxs →
        idxs.Pairwise (· < ·) ∧ ∀ i ∈ idxs, 0 ≤ i ∧ i < (shown.length : Int)) :
    ∀ (start : Nat) (l : List α), (processBatches text judge start l).Sublist l
  | _, [] => by simp [processBatches]
  | start, a :: b :: c :: d :: e :: rest => by
    have ih := processBatches_sublist text judge hj (start + 5) rest
    exact List.Sublist.append (contribution_of_shown_sublist text judge hj start [a, b, c, d, e]) ih
  | start, [a] => contribution_of_shown_sublist text judge hj start [a]
  | start, [a, b] => contribution_of_shown_sublist text judge hj start [a, b]
  | start, [a, b, c] => contribution_of_shown_sublist text judge hj start [a, b, c]
  | start, [a, b, c, d] => contribution_of_shown_sublist text judge hj start [a, b, c, d]

/-! ### C6 -/

/-- C6: on a judge failure the batch is retained in full — both the
API-failure handler and the parse-failure handler extend the accumulator
with every record of the current batch — and consequently a judge that
throws on every call yields a `filter_context` output equal to the input
context, for every context (including the empty one and the missing-client
guard). -/
theorem c6_fail_open :
    (∀ (batch : List CtxRec),
        batchContribution batch JudgeResult.apiFail = batch
        ∧ batchContribution batch JudgeResult.parseFail = batch)
    ∧ ∀ (hasClient : Bool) (ctx : List CtxRec),
        filter_context (fun r => CtxRec.text r) hasClient
          (fun _ => JudgeResult.apiFail) ctx = ctx := by
  refine ⟨fun batch => ⟨rfl, rfl⟩, ?_⟩
  intro hc ctx
  unfold filter_context
  rw [processBatches_const_apiFail]
  simp

/-! ### C10 -/

/-- C10 counterexample: the claim states that surviving records keep their
input order regardless of the order in which the judge lists the relevant
indices.  The code refutes it: the selection loop appends `batch.iloc[idx]`
in the judge's listing order, so a judge answering `[1, 0]` on a two-record
batch produces the two records reversed. -/
theorem c10_within_batch_order_counterexample :
    filter_context (fun r => CtxRec.text r) true (fun _ => JudgeResult.ok [1, 0])
        [mkRec 0, mkRec 1] = [mkRec 1, mkRec 0]
    ∧ ([mkRec 1, mkRec 0] : List CtxRec) ≠ [mkRec 0, mkRec 1] :=
  ⟨rfl, by decide⟩

/-- C10 amended: the relative input order is preserved across batches
always, but within a batch survivors appear in the order the judge lists
their indices; hence whenever every parsed judge response lists its indices
in strictly increasing order within `[0, batch length)`, the output of
`filter_context` is a sublist of the input context (batch-failure fallbacks
and the empty-result fallback included). -/
theorem c10_amended_order_when_judge_sorted :
    ∀ (ctx : List CtxRec) (hasClient : Bool)
      (judge : List (Nat × String) → JudgeResult),
      (∀ shown idxs, judge shown = JudgeResult.ok idxs →
          idxs.Pairwise (· < ·) ∧ ∀ i ∈ idxs, 0 ≤ i ∧ i < (shown.length : Int)) →
      (filter_context (fun r => CtxRec.text r) hasClient judge ctx).Sublist ctx := by
  intro ctx hc judge hj
  unfold filter_context
  split
  · exact List.Sublist.refl ctx
  · split
    · exact List.Sublist.refl ctx
    · exact processBatches_sublist (fun r => CtxRec.text r) judge hj 0 ctx

/-- Witness for the amended C10 theorem: a judge that never returns a
parsed verdict satisfies the sorted-indices hypothesis vacuously, and the
resulting output is a sublist of the concrete two-record input. -/
theorem c10_amended_witness :
    (filter_context (fun r => CtxRec.text r) true (fun _ => JudgeResult.apiFail)
      [mkRec 0, mkRec 1]).Sublist [mkRec 0, mkRec 1] :=
  c10_amended_order_when_judge_sorted [mkRec 0, mkRec 1] true
    (fun _ => JudgeResult.apiFail) (fun _ idxs h => by simp at h)

/-! Context-assembly helper lemmas. -/

theorem assembleContext_min_length (serps : List SerpHit) (texts : List TextHit) :
    ∀ r ∈ (assembleContext serps texts).rows, 100 < r.text.length := by
  intro r hr
  simp only [assembleContext, List.mem_map] at hr
  obtain ⟨jr, hjr, rfl⟩ := hr
  have h := (List.mem_filter.mp hjr).2
  simpa using h

theorem colsUnion_singleton (cs : List String) : colsUnion [cs] = cs := by
  simp [colsUnion]

theorem get_context_cases (env : ESEnv) (q : String) (b : Bool) (ctx : Ctx)
    (h : get_context env q b = Except.ok ctx) :
    ctx = ⟨[], []⟩ ∨ ∃ serps texts, ctx = assembleContext serps texts := by
  simp only [get_context] at h
  split at h
  · cases h
    exact Or.inl rfl
  · split at h
    · exact absurd h (by simp)
    · split at h
      · exact absurd h (by simp)
      · cases h
        exact Or.inr ⟨_, _, rfl⟩

theorem get_serps_with_and_query_cases (env : ESEnv) (q : String) (b : Bool) :
    get_serps_with_and_query env q b = ⟨[], []⟩
    ∨ ∃ serps texts, get_serps_with_and_query env q b = assembleContext serps texts := by
  simp only [get_serps_with_and_query]
  split
  · exact Or.inl rfl
  · split
    · exact Or.inl rfl
    · split
      · exact Or.inl rfl
      · split
        · exact Or.inl rfl
        · exact Or.inr ⟨_, _, rfl⟩

theorem finalColumns_no_score (hp : Bool) : "score" ∉ finalColumns hp := by
  cases hp <;> decide

theorem pipeline4Step_no_score (env : ESEnv) (b : Bool) (q : String) (c : Ctx)
    (h : pipeline4Step env b q = Except.ok c) : "score" ∉ c.cols := by
  simp only [pipeline4Step] at h
  split at h
  · rcases get_context_cases env q b c h with rfl | ⟨serps, texts, rfl⟩
    · simp
    · exact finalColumns_no_score _
  · cases h
    rcases get_serps_with_and_query_cases env q b with he | ⟨serps, texts, he⟩
    · rw [he]
      simp
    · rw [he]
      exact finalColumns_no_score _

theorem colsUnion_not_mem (s : String) :
    ∀ (ls : List (List String)) (acc : List String), s ∉ acc → (∀ cs ∈ ls, s ∉ cs) →
      s ∉ ls.foldl (fun acc cs => acc ++ cs.filter (fun c => !acc.contains c)) acc
  | [], _, ha, _ => ha
  | cs :: rest, acc, ha, hl => by
    apply colsUnion_not_mem s rest
    · intro hmem
      rcases List.mem_append.mp hmem with h | h
      · exact ha h
      · exact hl cs (List.mem_cons_self _ _) (List.mem_of_mem_filter h)
    · intro cs' hcs'
      exact hl cs' (List.mem_cons_of_mem _ hcs')

theorem pipeline4Contexts_no_score (env : ESEnv) (b : Bool) :
    ∀ (ql : List String) (ctxs : List (List String × List MRec)),
      pipeline4Contexts env b ql = Except.ok ctxs →
      ∀ p ∈ ctxs, "score" ∉ p.1
  | [], _, h, p, hp => by
    cases h
    simp at hp
  | q :: qs, ctxs, h, p, hp => by
    rw [pipeline4Contexts] at h
    cases hstep : pipeline4Step env b q with
    | error e => simp [hstep] at h
    | ok c =>
      cases hrest : pipeline4Contexts env b qs with
      | error e => simp [hstep, hrest] at h
      | ok rest =>
        simp only [hstep, hrest, Except.ok.injEq] at h
        rw [← h] at hp
        by_cases hc : c.rows.isEmpty
        · rw [if_pos hc] at hp
          exact pipeline4Contexts_no_score env b qs rest hrest p hp
        · rw [if_neg hc] at hp
          rcases List.mem_cons.mp hp with rfl | hp'
          · intro hmem
            rcases List.mem_append.mp hmem with hm | hm
            · exact pipeline4Step_no_score env b q c hstep hm
            · simp at hm
          · exact pipeline4Contexts_no_score env b qs rest hrest p hp'

/-- The `if "score" in combined_context.columns` re-sort of
`get_context_pipeline4` can never fire: the per-query contexts it
concatenates only ever carry `finalColumns` plus `source_query`, so the
combined column union has no `score` column.  This justifies embedding both
branches of that `if` as the deduplicated rows unchanged. -/
theorem pipeline4_cols_no_score (env : ESEnv) (b : Bool) (ql : List String)
    (ctxs : List (List String × List MRec))
    (h : pipeline4Contexts env b ql = Except.ok ctxs) :
    "score" ∉ colsUnion (ctxs.map (fun p => p.1)) := by
  unfold colsUnion
  apply colsUnion_not_mem "score" (ctxs.map (fun p => p.1)) []
  · simp
  · intro cs hcs
    rcases List.mem_map.mp hcs with ⟨p, hp, rfl⟩
    exact pipeline4Contexts_no_score env b ql ctxs h p hp

/-! ### C8 -/

/-- C8: every snippet record retained in a context returned by the Context
Assembler has a text strictly longer than 100 characters — both for the
OR-style `get_context` (whenever it returns without raising) and for the
AND-variant `get_serps_with_and_query`; shorter snippets are discarded by
the `length > 100` filter. -/
theorem c8_min_length :
    (∀ (env : ESEnv) (q : String) (b : Bool) (ctx : Ctx),
        get_context env q b = Except.ok ctx → ∀ r ∈ ctx.rows, 100 < r.text.length)
    ∧ (∀ (env : ESEnv) (q : String) (b : Bool),
        ∀ r ∈ (get_serps_with_and_query env q b).rows, 100 < r.text.length) := by
  constructor
  · intro env q b ctx h r hr
    rcases get_context_cases env q b ctx h with rfl | ⟨serps, texts, rfl⟩
    · simp at hr
    · exact assembleContext_min_length _ _ r hr
  · intro env q b r hr
    rcases get_serps_with_and_query_cases env q b with he | ⟨serps, texts, he⟩
    · rw [he] at hr
      simp at hr
    · rw [he] at hr
      exact assembleContext_min_length _ _ r hr

set_option maxRecDepth 8000 in
/-- Witness for C8 at the concrete environment `envC8`: the record the
OR-style assembler retains carries `tLong` (101 characters) and the record
the AND-variant retains carries `tLong2` (150 characters). -/
theorem c8_witness : 100 < tLong.length ∧ 100 < tLong2.length :=
  ⟨c8_min_length.1 envC8 "q" true ctxC8 rfl ⟨"w", none, tLong⟩ (by decide),
   c8_min_length.2 envC8 "q" true ⟨"w2", none, tLong2⟩ (by decide)⟩

/-! ### C9 -/

/-- C9: the AND-then-OR fallback.  Whenever the AND-operator precision
query for a pooled term string comes back empty but the OR-style
`get_context` succeeds with a non-empty context `c`, the per-term retrieval
of `get_context_pipeline4` is exactly that OR result, and for the singleton
pool the merged context it returns is `c` tagged with the term as
`source_query` (deduplicated, which for a single term only removes
repeated texts inside `c` itself). -/
theorem c9_and_or_fallback :
    ∀ (env : ESEnv) (b : Bool) (q : String) (c : Ctx),
      (get_serps_with_and_query env q b).rows = [] →
      get_context env q b = Except.ok c →
      c.rows ≠ [] →
      pipeline4Step env b q = Except.ok c
      ∧ get_context_pipeline4 env [q] b
          = Except.ok ⟨c.cols ++ ["source_query"],
              dedupByKey (fun r => MRec.text r) (tagRows q c.rows)⟩ := by
  intro env b q c hAnd hOr hne
  have hstep : pipeline4Step env b q = Except.ok c := by
    unfold pipeline4Step
    simp [hAnd, hOr]
  refine ⟨hstep, ?_⟩
  have hconn : env.connected = true := by
    by_contra hc
    have hfalse : env.connected = false := by
      cases henv : env.connected
      · rfl
      · exact absurd henv hc
    have h0 : get_context env q b = Except.ok ⟨[], []⟩ := by
      unfold get_context
      simp [hfalse]
    rw [hOr] at h0
    cases h0
    exact hne rfl
  have hctxs : pipeline4Contexts env b [q]
      = Except.ok [(c.cols ++ ["source_query"], tagRows q c.rows)] := by
    simp [pipeline4Contexts, hstep, hne]
  unfold get_context_pipeline4
  rw [hctxs]
  simp [hconn, colsUnion_singleton]

/-- Witness for C9 at the concrete environment `envC9` (no AND matches, OR
retrieves the one long snippet of `cC9`). -/
theorem c9_witness :
    pipeline4Step envC9 true "q" = Except.ok cC9
    ∧ get_context_pipeline4 envC9 ["q"] true
        = Except.ok ⟨cC9.cols ++ ["source_query"],
            dedupByKey (fun r => MRec.text r) (tagRows "q" cC9.rows)⟩ :=
  c9_and_or_fallback envC9 true "q" cC9 rfl rfl (by decide)

/-! ### C5 -/

/-- C5: the merged context of `get_context_pipeline4` never contains two
records with the same text (exact, case-sensitive comparison on the `text`
field), and deduplication keeps the first occurrence in pool order: for a
pool `[q0, q1]` whose per-query retrievals both contain a record with text
`t`, every merged record carrying text `t` has `source_query = q0`. -/
theorem c5_dedup_keeps_first :
    (∀ (env : ESEnv) (pool : List String) (b : Bool) (mctx : MCtx),
        get_context_pipeline4 env pool b = Except.ok mctx →
        (mctx.rows.map (fun r => MRec.text r)).Nodup)
    ∧ (∀ (env : ESEnv) (b : Bool) (q0 q1 : String) (c0 c1 : Ctx) (mctx : MCtx)
        (t : String),
        pipeline4Step env b q0 = Except.ok c0 →
        pipeline4Step env b q1 = Except.ok c1 →
        t ∈ c0.rows.map (fun r => CtxRec.text r) →
        t ∈ c1.rows.map (fun r => CtxRec.text r) →
        get_context_pipeline4 env [q0, q1] b = Except.ok mctx →
        ∀ r ∈ mctx.rows, r.text = t → r.sourceQuery = q0) := by
  constructor
  · intro env pool b mctx h
    unfold get_context_pipeline4 at h
    split at h
    · cases h; simp
    · split at h
      · cases h; simp
      · split at h
        · exact absurd h (by simp)
        · split at h
          · cases h; simp
          · cases h
            rw [ite_self]
            exact dedupByKey_nodup_keys _ _
  · intro env b q0 q1 c0 c1 mctx t h0 h1 ht0 ht1 hm r hr hrt
    have hne0 : c0.rows.isEmpty = false := by
      rcases List.mem_map.mp ht0 with ⟨a, ha, -⟩
      simpa using List.ne_nil_of_mem ha
    have hne1 : c1.rows.isEmpty = false := by
      rcases List.mem_map.mp ht1 with ⟨a, ha, -⟩
      simpa using List.ne_nil_of_mem ha
    by_cases hconn : env.connected = true
    · have hctxs : pipeline4Contexts env b [q0, q1]
          = Except.ok [(c0.cols ++ ["source_query"], tagRows q0 c0.rows),
                       (c1.cols ++ ["source_query"], tagRows q1 c1.rows)] := by
        simp [pipeline4Contexts, h0, h1, hne0, hne1]
      unfold get_context_pipeline4 at hm
      rw [hctxs] at hm
      simp [hconn] at hm
      have hrows : mctx.rows
          = dedupByKey (fun r => MRec.text r)
              (tagRows q0 c0.rows ++ tagRows q1 c1.rows) := by
        rw [← hm]
      rw [hrows] at hr
      have hkey : (fun r => MRec.text r) r
          ∈ (tagRows q0 c0.rows).map (fun r => MRec.text r) := by
        rw [tagRows_map_text]
        simpa [hrt] using ht0
      exact tagRows_sourceQuery (dedupByKey_first _ _ _ r hr hkey)
    · have hfalse : env.connected = false := by
        cases henv : env.connected
        · rfl
        · exact absurd henv hconn
      unfold get_context_pipeline4 at hm
      rw [hfalse] at hm
      cases hm
      simp at hr

/-- Witness for C5 at the concrete environment `envC5`: the pool
`["a", "b"]` retrieves the same `tLong` snippet through both queries, the
merged context has pairwise distinct texts, and the surviving copy carries
`source_query = "a"`. -/
theorem c5_witness :
    ((mctxC5.rows.map (fun r => MRec.text r)).Nodup)
    ∧ (⟨"a", none, tLong, "a"⟩ : MRec).sourceQuery = "a" :=
  ⟨c5_dedup_keeps_first.1 envC5 ["a", "b"] true mctxC5 rfl,
   c5_dedup_keeps_first.2 envC5 true "a" "b" cC5a cC5b mctxC5 tLong rfl rfl
     (by decide) (by decide) rfl ⟨"a", none, tLong, "a"⟩ (by decide) rfl⟩

end SLT
